import Mathlib

/-!
Verification of the RAG execution engine in `rag-chroma-db` (rag.py, api.py):
context formatting, streaming generation, source extraction, the LRU pipeline
cache (`functools.lru_cache(maxsize=8)` on `get_graph`) and the linear
retrieve → generate controller graph.
-/

/-- A metadata value stored in a document's metadata dict. -/
inductive MetaVal where
  | str : String → MetaVal
  | int : Int → MetaVal
deriving DecidableEq, Repr

/-- Rendering of a metadata value inside an f-string (Python `str()`). -/
def MetaVal.render : MetaVal → String
  | .str s => s
  | .int n => toString n

/-- A metadata dict, modelled as an association list with unique keys. -/
abbrev Meta := List (String × MetaVal)

/-- `langchain_core.documents.Document`: `page_content` plus an optional
metadata dict (`doc.metadata` may be `None`, guarded by `doc.metadata or {}`). -/
structure Document where
  page_content : String
  metadata : Option Meta
deriving DecidableEq, Repr

/-- Python `doc.metadata or {}`. -/
def Document.metaOr (doc : Document) : Meta := doc.metadata.getD []

/-- `(doc.metadata or {}).get("source", "unknown")`, rendered into the f-string. -/
def Document.sourceLabel (doc : Document) : String :=
  match doc.metaOr.lookup "source" with
  | some v => v.render
  | none => "unknown"

/-- One chunk string of `_format_context`:
`f"[{idx}] Source: {source}\n{doc.page_content}"`. -/
def contextBlock (idx : Nat) (doc : Document) : String :=
  "[" ++ toString idx ++ "] Source: " ++ doc.sourceLabel ++ "\n" ++ doc.page_content

/-- The `chunks` list built by the loop `for idx, doc in enumerate(docs, start=1)`,
parametrised by the running index. -/
def contextChunksFrom : Nat → List Document → List String
  | _, [] => []
  | idx, d :: rest => contextBlock idx d :: contextChunksFrom (idx + 1) rest

/-- The full `chunks` list of `_format_context` (enumeration starts at 1). -/
def contextChunks (docs : List Document) : List String :=
  contextChunksFrom 1 docs

/-- `rag._format_context`: returns `""` when `docs` is empty, otherwise the
chunks joined with a blank line (`"\n\n".join(chunks)`). -/
def _format_context (docs : List Document) : String :=
  if docs.isEmpty then ""
  else String.intercalate "\n\n" (contextChunks docs)

/-- A default document used only as the `getD` fallback in theorem statements. -/
def defaultDoc : Document := ⟨"", none⟩

/-- The dict passed to the stream writer:
`writer({"type": "token", "content": chunk.content})`. -/
structure StreamEvent where
  type : String
  content : String
deriving DecidableEq, Repr

/-- The event `generate` forwards for one non-empty chunk content. -/
def tokenEvent (c : String) : StreamEvent := ⟨"token", c⟩

/-- The `async for chunk in llm.astream(...)` loop body of `generate`, applied
to the sequence of chunk contents the model emits: a chunk with falsy (empty)
content is skipped; otherwise it is appended to `parts` and forwarded to the
writer. Returns the final `parts` list and the events written, in order. -/
def generateLoop : List String → List String × List StreamEvent
  | [] => ([], [])
  | c :: rest =>
    let r := generateLoop rest
    if c.isEmpty then r else (c :: r.1, tokenEvent c :: r.2)

/-- A retrieval failure raised by the vector index (external collaborator). -/
structure RetrievalError where
  msg : String
deriving DecidableEq, Repr

/-- A generation failure raised by the language model mid-stream or up front. -/
structure GenError where
  msg : String
deriving DecidableEq, Repr

/-- What one `llm.astream` call produces: the chunk contents it yields, and
then either normal exhaustion (`failure = none`) or a raised error after the
last yielded chunk. -/
structure GenOutcome where
  chunks : List String
  failure : Option GenError
deriving Repr

/-- The `generate` node applied to one stream outcome: the events written to
the sink, and either the `{"answer": "".join(parts)}` update or the
propagated error (in which case no answer is returned). -/
def generateNode (out : GenOutcome) : List StreamEvent × Except GenError String :=
  let r := generateLoop out.chunks
  match out.failure with
  | some e => (r.2, Except.error e)
  | none => (r.2, Except.ok (String.join r.1))

/-- `rag.SYSTEM_PROMPT`. -/
def SYSTEM_PROMPT : String :=
  "You are a helpful RAG assistant. Use the provided context to answer the question. " ++
  "If the context does not contain the answer, say you don't know and suggest what to " ++
  "ingest to answer better."

/-- A chat message: `SystemMessage` or `HumanMessage`. -/
inductive Message where
  | system : String → Message
  | human : String → Message
deriving DecidableEq, Repr

/-- The user prompt of `generate`:
`f"Question: {question}\n\nContext:\n{context if context else '[no context retrieved]'}"`. -/
def userPrompt (question context : String) : String :=
  "Question: " ++ question ++ "\n\nContext:\n" ++
    (if context.isEmpty then "[no context retrieved]" else context)

/-- The message list `generate` sends to the model, built from the question and
the docs produced by the retrieve node. -/
def ragMessages (question : String) (docs : List Document) : List Message :=
  [Message.system SYSTEM_PROMPT, Message.human (userPrompt question (_format_context docs))]

/-- A compiled pipeline: the bound retriever (which may raise a
`RetrievalError`) and the bound streaming model. -/
structure Pipeline where
  retriever : String → Except RetrievalError (List Document)
  llm : List Message → GenOutcome

/-- A failure of one graph invocation, tagged by the node that raised it. -/
inductive PipelineError where
  | retrieval : RetrievalError → PipelineError
  | generation : GenError → PipelineError
deriving DecidableEq, Repr

/-- The final graph state after a successful run: `question`, `docs`, `answer`. -/
structure RAGState where
  question : String
  docs : List Document
  answer : String
deriving DecidableEq, Repr

/-- One invocation of the compiled graph `START → retrieve → generate → END`:
the retrieve node runs first; a retrieval error propagates with no generation
call; otherwise the generate node consumes exactly the retrieved docs. The
first component is the sequence of stream events written to the sink. -/
def runGraph (p : Pipeline) (question : String) :
    List StreamEvent × Except PipelineError RAGState :=
  match p.retriever question with
  | .error e => ([], .error (.retrieval e))
  | .ok docs =>
    let g := generateNode (p.llm (ragMessages question docs))
    match g.2 with
    | .error e => (g.1, .error (.generation e))
    | .ok answer => (g.1, .ok ⟨question, docs, answer⟩)

/-- One source record of `api._format_sources`: the projection of a passage's
metadata onto the keys `source`, `chunk`, `id` (absent keys become `None`). -/
structure SourceRecord where
  source : Option MetaVal
  chunk : Option MetaVal
  id : Option MetaVal
deriving DecidableEq, Repr

/-- The record `_format_sources` appends for one doc, via
`meta.get("source") / meta.get("chunk") / meta.get("id")` on `doc.metadata or {}`. -/
def sourceRecord (doc : Document) : SourceRecord :=
  { source := doc.metaOr.lookup "source"
    chunk := doc.metaOr.lookup "chunk"
    id := doc.metaOr.lookup "id" }

/-- `api._format_sources`: one record per doc, in input order. -/
def _format_sources (docs : List Document) : List SourceRecord :=
  docs.map sourceRecord

/-- `api.ChatResponse`: the answer plus the extracted source records. -/
structure ChatResponse where
  answer : String
  sources : List SourceRecord
deriving DecidableEq, Repr

/-- `api.chat` body after the graph is obtained: `await graph.ainvoke(...)`,
then `ChatResponse(answer=..., sources=_format_sources(...))`. An exception
from the graph propagates unchanged and no response is constructed. -/
def chat (p : Pipeline) (message : String) :
    List StreamEvent × Except PipelineError ChatResponse :=
  match runGraph p message with
  | (events, .error e) => (events, .error e)
  | (events, .ok st) => (events, .ok ⟨st.answer, _format_sources st.docs⟩)

/-- The `functools.lru_cache(maxsize=8)` state wrapping `get_graph`, one entry
per collection name. Pipelines are identified by their build id (`nextId` at
construction time); `builds` counts invocations of the wrapped constructor.
`entries` is ordered most-recently-used first. -/
structure GraphCache where
  entries : List (String × Nat)
  nextId : Nat
  builds : Nat
deriving DecidableEq, Repr

/-- The cache before any call. -/
def GraphCache.empty : GraphCache := ⟨[], 0, 0⟩

/-- The `maxsize` argument of the `lru_cache` decorator on `get_graph`. -/
def MAXSIZE : Nat := 8

/-- Removal of a key's entry (used when a hit moves the entry to the front). -/
def eraseKey (key : String) (es : List (String × Nat)) : List (String × Nat) :=
  es.filter (fun p => p.1 != key)

/-- One call of the cached `get_graph(collection_name)`: on a hit the entry
moves to the most-recent position and its pipeline is returned unchanged; on a
miss the constructor runs once, the least-recently-used entry is discarded if
the cache is full, and the new pipeline is inserted most-recent. -/
def get_graph (s : GraphCache) (key : String) : Nat × GraphCache :=
  match s.entries.lookup key with
  | some v => (v, { s with entries := (key, v) :: eraseKey key s.entries })
  | none =>
    let base := if s.entries.length = MAXSIZE then s.entries.dropLast else s.entries
    (s.nextId,
      { entries := (key, s.nextId) :: base, nextId := s.nextId + 1, builds := s.builds + 1 })

/-- `get_graph.cache_clear()`, the only invalidation operation `lru_cache`
exposes: it empties the whole mapping. -/
def cache_clear (s : GraphCache) : GraphCache := { s with entries := [] }

/-- The operations the source can perform on the cache: call the memoized
`get_graph` with a collection name, or `cache_clear()`. `lru_cache` exposes no
per-key operation. -/
inductive CacheOp where
  | call : String → CacheOp
  | wipe : CacheOp
deriving Repr

/-- Application of one cache operation to the cache state. -/
def applyOp (s : GraphCache) : CacheOp → GraphCache
  | .call k => (get_graph s k).2
  | .wipe => cache_clear s

/-- A sequence of `get_graph` calls, discarding the returned pipelines. -/
def runKeys (s : GraphCache) (keys : List String) : GraphCache :=
  keys.foldl (fun st k => (get_graph st k).2) s

/-- Scenario A fixture: two passages with sources `f1` and `f2`. -/
def scenarioDocs : List Document :=
  [⟨"a", some [("source", MetaVal.str "f1")]⟩, ⟨"b", some [("source", MetaVal.str "f2")]⟩]

/-- A retriever whose vector index is unreachable. -/
def failingRetriever : String → Except RetrievalError (List Document) :=
  fun _ => .error ⟨"index unreachable"⟩

/-- A retriever returning the Scenario A passages. -/
def okRetriever : String → Except RetrievalError (List Document) :=
  fun _ => .ok scenarioDocs

/-- A model that streams two chunks and completes. -/
def steadyLLM : List Message → GenOutcome := fun _ => ⟨["Hel", "lo"], none⟩

/-- A model that streams no chunks and completes. -/
def silentLLM : List Message → GenOutcome := fun _ => ⟨[], none⟩

/-- A model that streams three chunks and then raises (Scenario D). -/
def failingLLM : List Message → GenOutcome :=
  fun _ => ⟨["t1", "t2", "t3"], some ⟨"model failure"⟩⟩

/-- A cache holding eight entries, i.e. at capacity. -/
def fullCache : GraphCache :=
  ⟨[("c1", 7), ("c2", 6), ("c3", 5), ("c4", 4), ("c5", 3), ("c6", 2), ("c7", 1), ("c8", 0)], 8, 8⟩

/-- A cache holding two entries. -/
def twoEntryCache : GraphCache := ⟨[("k1", 0), ("k2", 1)], 2, 2⟩

/-- Eight distinct collection names other than `"docs"`. -/
def eightKeys : List String := ["a1", "a2", "a3", "a4", "a5", "a6", "a7", "a8"]

theorem contextChunksFrom_length (n : Nat) (docs : List Document) :
    (contextChunksFrom n docs).length = docs.length := by
  induction docs generalizing n with
  | nil => rfl
  | cons d rest ih => simp [contextChunksFrom, ih]

theorem contextChunksFrom_getD (n : Nat) (docs : List Document) (i : Nat)
    (h : i < docs.length) :
    (contextChunksFrom n docs).getD i "" = contextBlock (n + i) (docs.getD i defaultDoc) := by
  induction docs generalizing n i with
  | nil => simp at h
  | cons d rest ih =>
    cases i with
    | zero => simp [contextChunksFrom, List.getD]
    | succ j =>
      have hj : j < rest.length := by simpa using h
      have := ih (n + 1) j hj
      simpa [contextChunksFrom, List.getD, Nat.add_assoc, Nat.add_comm 1 j] using this

theorem getD_map_of_lt {α β : Type} (f : α → β) (l : List α) (i : Nat) (dA : α) (dB : β)
    (h : i < l.length) : (l.map f).getD i dB = f (l.getD i dA) := by
  induction l generalizing i with
  | nil => simp at h
  | cons x xs ih =>
    cases i with
    | zero => simp [List.getD]
    | succ j =>
      have hj : j < xs.length := by simpa using h
      simpa [List.getD] using ih j hj

/-- C1 counterexample: on the empty passage sequence `_format_context` returns
the empty string, not the `[no context retrieved]` marker. -/
theorem format_context_empty_is_empty_string :
    _format_context [] = "" ∧ _format_context [] ≠ "[no context retrieved]" := by
  constructor
  · rfl
  · decide

/-- C1 (amended): `_format_context` returns `""` on the empty sequence, and the
`generate` node substitutes the fixed `[no context retrieved]` marker into the
user prompt, so the prompt context is never empty. -/
theorem empty_context_marker_in_prompt (question : String) :
    _format_context [] = "" ∧
    userPrompt question (_format_context []) =
      "Question: " ++ question ++ "\n\nContext:\n" ++ "[no context retrieved]" := by
  exact ⟨rfl, rfl⟩

/-- C2: for a non-empty passage sequence of length n, `_format_context` joins
exactly n blocks, where block i (0-based) carries the 1-based citation index
i+1, the passage's source label (with placeholder `unknown` when absent), and
the passage content. -/
theorem format_context_blocks (docs : List Document) (h : docs ≠ []) :
    (contextChunks docs).length = docs.length ∧
    _format_context docs = String.intercalate "\n\n" (contextChunks docs) ∧
    ∀ i, i < docs.length →
      (contextChunks docs).getD i "" =
        "[" ++ toString (i + 1) ++ "] Source: " ++ (docs.getD i defaultDoc).sourceLabel ++
          "\n" ++ (docs.getD i defaultDoc).page_content := by
  refine ⟨contextChunksFrom_length 1 docs, ?_, ?_⟩
  · have : docs.isEmpty = false := by
      cases docs with
      | nil => exact absurd rfl h
      | cons d rest => rfl
    simp [_format_context, this]
  · intro i hi
    have := contextChunksFrom_getD 1 docs i hi
    simpa [contextChunks, contextBlock, Nat.add_comm 1 i] using this

/-- C2 witness: the theorem applied to the Scenario A passages. -/
theorem format_context_blocks_witness :
    _format_context scenarioDocs = String.intercalate "\n\n" (contextChunks scenarioDocs) :=
  (format_context_blocks scenarioDocs (by decide)).2.1

theorem generateLoop_parts_eq_event_contents (chunks : List String) :
    (generateLoop chunks).1 = ((generateLoop chunks).2).map StreamEvent.content := by
  induction chunks with
  | nil => rfl
  | cons c rest ih =>
    by_cases hc : c.isEmpty
    · simp [generateLoop, hc, ih]
    · simp [generateLoop, hc, tokenEvent, ih]

/-- C3: when the stream completes without failure, the final answer is the
concatenation, in emission order, of the contents forwarded to the sink; a
stream of zero chunks yields the empty answer without error. -/
theorem generate_answer_is_concat (out : GenOutcome) (h : out.failure = none) :
    (generateNode out).2 =
      Except.ok (String.join (((generateNode out).1).map StreamEvent.content)) ∧
    (out.chunks = [] → (generateNode out).2 = Except.ok "") := by
  constructor
  · simp [generateNode, h, generateLoop_parts_eq_event_contents]
  · intro hc
    simp [generateNode, h, hc, generateLoop, String.join]

/-- C3 witness: the theorem applied to a completed two-chunk stream and to the
zero-chunk stream. -/
theorem generate_answer_is_concat_witness :
    (generateNode ⟨["Hel", "lo"], none⟩).2 =
      Except.ok (String.join (((generateNode ⟨["Hel", "lo"], none⟩).1).map StreamEvent.content)) ∧
    (generateNode ⟨[], none⟩).2 = Except.ok "" :=
  ⟨(generate_answer_is_concat ⟨["Hel", "lo"], none⟩ rfl).1,
    (generate_answer_is_concat ⟨[], none⟩ rfl).2 rfl⟩

/-- C10: a chunk is forwarded to the sink as a token event and kept in the
answer parts exactly when its content is non-empty; empty-content chunks are
dropped from both. -/
theorem generate_drops_empty_chunks (chunks : List String) :
    (generateLoop chunks).2 = (chunks.filter (fun c => !c.isEmpty)).map tokenEvent ∧
    (generateLoop chunks).1 = chunks.filter (fun c => !c.isEmpty) := by
  induction chunks with
  | nil => exact ⟨rfl, rfl⟩
  | cons c rest ih =>
    by_cases hc : c.isEmpty
    · simp [generateLoop, hc, List.filter, ih]
    · simp [generateLoop, hc, List.filter, tokenEvent, ih]

/-- C8: `_format_sources` yields one record per passage in input order, each
record being exactly the projection of that passage's metadata onto the
`source`, `chunk`, `id` keys, with absent keys rendered as `none`. -/
theorem format_sources_projection (docs : List Document) :
    (_format_sources docs).length = docs.length ∧
    (∀ i, i < docs.length →
      (_format_sources docs).getD i (sourceRecord defaultDoc) =
        { source := (docs.getD i defaultDoc).metaOr.lookup "source"
          chunk := (docs.getD i defaultDoc).metaOr.lookup "chunk"
          id := (docs.getD i defaultDoc).metaOr.lookup "id" }) ∧
    ∀ doc : Document, doc.metadata = none →
      sourceRecord doc = ⟨none, none, none⟩ := by
  refine ⟨by simp [_format_sources], ?_, ?_⟩
  · intro i hi
    have := getD_map_of_lt sourceRecord docs i defaultDoc (sourceRecord defaultDoc) hi
    simpa [_format_sources, sourceRecord] using this
  · intro doc hm
    simp [sourceRecord, Document.metaOr, hm, List.lookup]

/-- C7: the retrieve node runs and its error path is checked before generate:
a retrieval error yields no stream events, is surfaced unchanged, and the
result does not depend on the model (no generation call); on success, the
events are those of the generate node applied to exactly the retrieved docs,
and a successful final state carries those docs, the question, and the
generate node's answer. -/
theorem retrieve_completes_before_generate
    (ret : String → Except RetrievalError (List Document))
    (llmA llmB : List Message → GenOutcome) (q : String) :
    (∀ e, ret q = .error e →
      runGraph ⟨ret, llmA⟩ q = ([], .error (.retrieval e)) ∧
      runGraph ⟨ret, llmA⟩ q = runGraph ⟨ret, llmB⟩ q) ∧
    (∀ docs, ret q = .ok docs →
      (runGraph ⟨ret, llmA⟩ q).1 = (generateNode (llmA (ragMessages q docs))).1 ∧
      ∀ st, (runGraph ⟨ret, llmA⟩ q).2 = .ok st →
        st.docs = docs ∧ st.question = q ∧
        (generateNode (llmA (ragMessages q docs))).2 = .ok st.answer) := by
  constructor
  · intro e he
    exact ⟨by simp [runGraph, he], by simp [runGraph, he]⟩
  · intro docs hd
    cases hg : (generateNode (llmA (ragMessages q docs))).2 with
    | error e =>
      constructor
      · simp [runGraph, hd, hg]
      · intro st hst
        simp [runGraph, hd, hg] at hst
    | ok answer =>
      constructor
      · simp [runGraph, hd, hg]
      · intro st hst
        simp [runGraph, hd, hg] at hst
        subst hst
        exact ⟨rfl, rfl, by simp [hg]⟩

/-- C7 witness: with an unreachable index, the run aborts with the retrieval
error unchanged, no events, and the same result under two different models. -/
theorem retrieve_completes_before_generate_witness :
    runGraph ⟨failingRetriever, steadyLLM⟩ "q" =
      ([], .error (.retrieval ⟨"index unreachable"⟩)) ∧
    runGraph ⟨failingRetriever, steadyLLM⟩ "q" =
      runGraph ⟨failingRetriever, failingLLM⟩ "q" :=
  (retrieve_completes_before_generate failingRetriever steadyLLM failingLLM "q").1
    ⟨"index unreachable"⟩ rfl

/-- C9: when the model raises after emitting its chunks, the events already
written to the sink are exactly those of the emitted chunks (no retraction),
the run surfaces a generation failure, and no answer is produced (neither by
the graph nor by `chat`, which constructs no response). -/
theorem generation_failure_preserves_stream (p : Pipeline) (q : String)
    (docs : List Document) (e : GenError)
    (hret : p.retriever q = .ok docs)
    (hfail : (p.llm (ragMessages q docs)).failure = some e) :
    runGraph p q =
      ((generateLoop (p.llm (ragMessages q docs)).chunks).2, .error (.generation e)) ∧
    chat p q =
      ((generateLoop (p.llm (ragMessages q docs)).chunks).2, .error (.generation e)) := by
  have h1 : runGraph p q =
      ((generateLoop (p.llm (ragMessages q docs)).chunks).2, .error (.generation e)) := by
    simp [runGraph, hret, generateNode, hfail]
  exact ⟨h1, by simp [chat, h1]⟩

/-- C9 witness (Scenario D): the model raises after three chunks; the sink
holds exactly those three token events and the failure is surfaced with no
answer. -/
theorem generation_failure_preserves_stream_witness :
    runGraph ⟨okRetriever, failingLLM⟩ "q" =
      ([tokenEvent "t1", tokenEvent "t2", tokenEvent "t3"],
        .error (.generation ⟨"model failure"⟩)) ∧
    chat ⟨okRetriever, failingLLM⟩ "q" =
      ([tokenEvent "t1", tokenEvent "t2", tokenEvent "t3"],
        .error (.generation ⟨"model failure"⟩)) := by
  have h := generation_failure_preserves_stream ⟨okRetriever, failingLLM⟩ "q"
    scenarioDocs ⟨"model failure"⟩ rfl rfl
  exact h

/-- C4 counterexample: after eight other collections are requested, the LRU
cache has silently evicted `"docs"` — no `cache_clear` and no per-key
invalidation happened — and the next request rebuilds it, returning a pipeline
with a different identity (and a tenth construction for nine distinct keys). -/
theorem pipeline_rebuilt_after_implicit_eviction :
    (get_graph (runKeys (get_graph GraphCache.empty "docs").2 eightKeys) "docs").1 ≠
      (get_graph GraphCache.empty "docs").1 ∧
    (get_graph (runKeys (get_graph GraphCache.empty "docs").2 eightKeys) "docs").2.builds = 10 := by
  decide

/-- C4 (amended): two sequential `get_graph` calls with the same key return
the identical pipeline and the second performs no construction; more
generally, while a key's entry is in the cache, a call returns the cached
pipeline without building. The pipeline is only reused until LRU eviction,
which can occur implicitly once more than eight distinct keys are requested. -/
theorem get_graph_cached_reuse (s : GraphCache) (k : String) :
    ((get_graph (get_graph s k).2 k).1 = (get_graph s k).1 ∧
     (get_graph (get_graph s k).2 k).2.builds = (get_graph s k).2.builds) ∧
    (∀ v, s.entries.lookup k = some v →
      (get_graph s k).1 = v ∧ (get_graph s k).2.builds = s.builds) := by
  constructor
  · cases hl : s.entries.lookup k with
    | some v => exact ⟨by simp [get_graph, hl, List.lookup], by simp [get_graph, hl, List.lookup]⟩
    | none => exact ⟨by simp [get_graph, hl, List.lookup], by simp [get_graph, hl, List.lookup]⟩
  · intro v hv
    exact ⟨by simp [get_graph, hv], by simp [get_graph, hv]⟩

/-- C4 witness: on a cache holding `"k1"`, a call returns the cached pipeline
identity 0 and performs no construction. -/
theorem get_graph_cached_reuse_witness :
    (get_graph twoEntryCache "k1").1 = 0 ∧
    (get_graph twoEntryCache "k1").2.builds = 2 :=
  (get_graph_cached_reuse twoEntryCache "k1").2 0 rfl

theorem eraseKey_length_lt (k : String) (es : List (String × Nat)) (v : Nat)
    (h : es.lookup k = some v) : (eraseKey k es).length < es.length := by
  induction es with
  | nil => simp [List.lookup] at h
  | cons p rest ih =>
    rcases p with ⟨a, b⟩
    by_cases hk : k = a
    · subst hk
      simp only [eraseKey, List.filter]
      have : (k != k) = false := by simp
      rw [this]
      exact Nat.lt_succ_of_le (List.length_filter_le _ _)
    · have hb : (k == a) = false := by simp [hk]
      have hb2 : (a != k) = true := by simp [Ne.symm hk]
      have hrest : rest.lookup k = some v := by
        simpa [List.lookup, hb] using h
      simp only [eraseKey, List.filter, hb2]
      simpa [eraseKey] using Nat.succ_lt_succ (ih hrest)

/-- C5 counterexample: no operation the cached `get_graph` exposes (a memoized
call or `cache_clear`) can invalidate exactly one key: starting from a cache
holding `k1` and `k2`, no single operation leaves exactly `k2` cached. -/
theorem no_per_key_invalidate :
    ¬ ∃ op : CacheOp, ((applyOp twoEntryCache op).entries.map Prod.fst) = ["k2"] := by
  rintro ⟨op, h⟩
  cases op with
  | wipe => simp [applyOp, cache_clear, twoEntryCache] at h
  | call k =>
    by_cases hk1 : k = "k1"
    · subst hk1
      exact absurd h (by decide)
    · by_cases hk2 : k = "k2"
      · subst hk2
        exact absurd h (by decide)
      · have hb1 : (k == "k1") = false := by simp [hk1]
        have hb2 : (k == "k2") = false := by simp [hk2]
        have hnone : (([("k1", 0), ("k2", 1)] : List (String × Nat)).lookup k) = none := by
          simp [List.lookup, hb1, hb2]
        simp [applyOp, get_graph, twoEntryCache, hnone, MAXSIZE] at h

theorem get_graph_length_le (s : GraphCache) (k : String)
    (hle : s.entries.length ≤ MAXSIZE) :
    (get_graph s k).2.entries.length ≤ MAXSIZE := by
  cases hl : s.entries.lookup k with
  | some v =>
    have hlt := eraseKey_length_lt k s.entries v hl
    simp only [get_graph, hl, List.length_cons]
    omega
  | none =>
    by_cases hfull : s.entries.length = MAXSIZE
    · have hdrop : s.entries.dropLast.length = s.entries.length - 1 := by
        simp [List.length_dropLast]
      simp only [get_graph, hl, hfull, if_pos rfl, List.length_cons]
      rw [hfull] at hdrop
      simp [MAXSIZE] at hdrop ⊢
      omega
    · simp only [get_graph, hl, if_neg hfull, List.length_cons]
      omega

/-- C5 (amended): the cache is a bounded LRU mapping of capacity exactly 8
(the hardcoded `lru_cache(maxsize=8)`): a call never grows it past 8 entries,
a miss on a full cache evicts the least-recently-used entry and inserts the
new pipeline most-recent, and the only exposed invalidation is `cache_clear`,
which empties the whole mapping (there is no per-key invalidate). -/
theorem cache_bounded_lru_clear (s : GraphCache) (k : String) :
    (s.entries.length ≤ MAXSIZE → (get_graph s k).2.entries.length ≤ MAXSIZE) ∧
    (cache_clear s).entries = [] ∧
    (s.entries.lookup k = none → s.entries.length = MAXSIZE →
      (get_graph s k).2.entries = (k, s.nextId) :: s.entries.dropLast) := by
  refine ⟨get_graph_length_le s k, rfl, ?_⟩
  intro hnone hfull
  simp [get_graph, hnone, hfull]

/-- C5 witness: on a full eight-entry cache, a miss keeps the size at 8,
evicts the least-recently-used entry, and `cache_clear` empties the cache. -/
theorem cache_bounded_lru_clear_witness :
    (get_graph fullCache "c9").2.entries.length ≤ MAXSIZE ∧
    (cache_clear fullCache).entries = [] ∧
    (get_graph fullCache "c9").2.entries =
      ("c9", fullCache.nextId) :: fullCache.entries.dropLast := by
  have h := cache_bounded_lru_clear fullCache "c9"
  exact ⟨h.1 (by decide), h.2.1, h.2.2 (by decide) (by decide)⟩

/-- C8 witness: the theorem applied to the Scenario A passages, with the
indexed projection instantiated at index 0. -/
theorem format_sources_projection_witness :
    (_format_sources scenarioDocs).length = scenarioDocs.length ∧
    (_format_sources scenarioDocs).getD 0 (sourceRecord defaultDoc) =
      { source := (scenarioDocs.getD 0 defaultDoc).metaOr.lookup "source"
        chunk := (scenarioDocs.getD 0 defaultDoc).metaOr.lookup "chunk"
        id := (scenarioDocs.getD 0 defaultDoc).metaOr.lookup "id" } :=
  ⟨(format_sources_projection scenarioDocs).1,
    (format_sources_projection scenarioDocs).2.1 0 (by decide)⟩
